import Mathlib

/-!
Verification of the ResumeEnhancer backend (src/Backend/main.py).

The Python service is shallowly embedded here:
* the sklearn `TfidfVectorizer` tokenizer (default `token_pattern`, i.e. maximal
  runs of word characters of length at least two, after lowercasing) is
  `sklearnTokens`;
* the spaCy pipeline used by `preprocess_text` is modelled by whitespace
  tokenization together with an explicit language model (`NlpModel`) carrying
  the lemmatizer and the stop-word predicate, which the real program loads
  from `en_core_web_sm`;
* TF-IDF weights (smooth idf, corpus of exactly the two documents) and cosine
  similarity are real-number arithmetic, machine floats being idealized as
  exact reals, and Python rounding as `round` (they agree away from ties);
* document parsers (PyPDF2 / python-docx) are external collaborators and enter
  as an environment of fallible extraction functions (`ExtractEnv`);
* a raised `HTTPException` becomes `Except.error (HError.http status detail)`;
  an exception that escapes the handler (e.g. sklearn's empty-vocabulary
  `ValueError`) becomes `Except.error (HError.uncaught msg)`.
-/

namespace ResumeEnhancer

/-! ### Tokenization primitives -/

/-- Word characters, Python regex `\w` (ASCII idealization). -/
def isWordChar (c : Char) : Bool := c.isAlphanum || c == '_'

/-- Maximal runs of word characters, accumulator-style; this is what the
sklearn default `token_pattern` `\b\w\w+\b` extracts before the length
filter. The accumulator holds the current run reversed. -/
def wordRuns : List Char → List Char → List String
  | [], cur => if cur.isEmpty then [] else [String.mk cur.reverse]
  | c :: cs, cur =>
    if isWordChar c then wordRuns cs (c :: cur)
    else if cur.isEmpty then wordRuns cs [] else String.mk cur.reverse :: wordRuns cs []

/-- Tokens produced by `TfidfVectorizer` on a document: lowercase, then keep
maximal word-character runs of length at least 2. -/
def sklearnTokens (s : String) : List String :=
  (wordRuns (s.data.map Char.toLower) []).filter (fun t => decide (2 ≤ t.length))

/-- Whitespace tokenization (the spaCy tokenizer restricted to the inputs the
program feeds it: text whose punctuation was already stripped). -/
def wsSplit : List Char → List Char → List String
  | [], cur => if cur.isEmpty then [] else [String.mk cur.reverse]
  | c :: cs, cur =>
    if c.isWhitespace then
      if cur.isEmpty then wsSplit cs [] else String.mk cur.reverse :: wsSplit cs []
    else wsSplit cs (c :: cur)

/-- Lexicographic comparison of character lists by code point; this is the
order Python uses to compare strings. -/
def lexLe : List Char → List Char → Bool
  | [], _ => true
  | _ :: _, [] => false
  | a :: as, b :: bs =>
    if a.toNat < b.toNat then true
    else if b.toNat < a.toNat then false
    else lexLe as bs

/-- The Python string order as a proposition. -/
def strLE (a b : String) : Prop := lexLe a.data b.data = true

instance : DecidableRel strLE := fun a b => instDecidableEqBool (lexLe a.data b.data) true

/-- Sorting with the string order; `get_feature_names_out` returns the fitted
vocabulary sorted, and `sorted(...)` sorts the keyword lists. -/
def sortStrings (l : List String) : List String := l.insertionSort strLE

/-- Fitted vocabulary of a single document: the sorted set of its tokens. -/
def vocabOf (doc : String) : List String := sortStrings (sklearnTokens doc).dedup

/-! ### `preprocess_text` -/

/-- The parts of the loaded spaCy language model that `preprocess_text`
consults: per-token lemma and stop-word flag. -/
structure NlpModel where
  lemma_ : String → String
  is_stop : String → Bool

/-- `token.is_alpha`: nonempty and all alphabetic. -/
def isAlphaToken (t : String) : Bool := !t.isEmpty && t.data.all Char.isAlpha

/-- `preprocess_text` from main.py: strip non-word non-space characters,
lowercase, tokenize, drop stop words and non-alphabetic tokens (punctuation
tokens cannot occur, having been stripped), lemmatize, re-join with spaces. -/
def preprocess_text (m : NlpModel) (text : String) : String :=
  let cleaned := text.data.filter (fun c => isWordChar c || c.isWhitespace)
  let toks := wsSplit (cleaned.map Char.toLower) []
  let kept := toks.filter (fun t => !m.is_stop t && isAlphaToken t)
  " ".intercalate (kept.map m.lemma_)

/-! ### TF-IDF and cosine similarity (corpus of exactly two documents) -/

/-- Raw term frequency of `t` in `doc`. -/
def tf (doc t : String) : Nat := (sklearnTokens doc).count t

/-- Document frequency of `t` over the two-document corpus. -/
def docFreq (p1 p2 t : String) : Nat :=
  (if (sklearnTokens p1).contains t then 1 else 0) +
    (if (sklearnTokens p2).contains t then 1 else 0)

/-- The joint fitted vocabulary of the corpus `[p1, p2]` as a set. -/
def jointVocab (p1 p2 : String) : Finset String :=
  (sklearnTokens p1 ++ sklearnTokens p2).toFinset

/-- Smoothed inverse document frequency, sklearn default
(`ln ((1+n)/(1+df)) + 1` with `n = 2`). -/
noncomputable def idf (p1 p2 t : String) : ℝ :=
  Real.log (3 / (1 + (docFreq p1 p2 t : ℝ))) + 1

/-- Entry `t` of the (unnormalized) TF-IDF vector of `doc` in the corpus
`[p1, p2]`. -/
noncomputable def tfidf (p1 p2 doc t : String) : ℝ :=
  (tf doc t : ℝ) * idf p1 p2 t

noncomputable def dotProd (p1 p2 : String) : ℝ :=
  ∑ t ∈ jointVocab p1 p2, tfidf p1 p2 p1 t * tfidf p1 p2 p2 t

noncomputable def normSq (p1 p2 doc : String) : ℝ :=
  ∑ t ∈ jointVocab p1 p2, (tfidf p1 p2 doc t) ^ 2

/-- Entry `t` of the l2-normalized TF-IDF vector of `doc` (the row of sklearn's
`tfidf_matrix`). -/
noncomputable def normedVec (p1 p2 doc t : String) : ℝ :=
  tfidf p1 p2 doc t / Real.sqrt (normSq p1 p2 doc)

/-- Cosine similarity of the two TF-IDF vectors (a zero vector yields 0, as in
sklearn, matching the division-by-zero convention). -/
noncomputable def cosineSim (p1 p2 : String) : ℝ :=
  dotProd p1 p2 / (Real.sqrt (normSq p1 p2 p1) * Real.sqrt (normSq p1 p2 p2))

/-- `round(cosine_sim * 100, 2)`: the score as a real carrying two decimals. -/
noncomputable def match_score (p1 p2 : String) : ℝ :=
  (round (cosineSim p1 p2 * 10000) : ℤ) / 100

/-! ### The `/analyze` endpoint -/

/-- Response model `AnalysisResult` from main.py. -/
structure AnalysisResult where
  match_score : ℝ
  matched_keywords : List String
  missing_keywords : List String

/-- Outcome of a handler: a raised `HTTPException` (structured status +
detail), or an exception escaping the handler uncaught. -/
inductive HError where
  | http (status : Nat) (detail : String)
  | uncaught (message : String)
deriving DecidableEq

/-- Step 6 of `analyze_resume`: two independent single-document vocabulary
fits (each on the preprocessed text), then sorted set intersection and
difference. -/
def keyword_analysis (m : NlpModel) (resume_text job_description : String) :
    List String × List String :=
  let jd_keywords := vocabOf (preprocess_text m job_description)
  let resume_keywords := vocabOf (preprocess_text m resume_text)
  (sortStrings (jd_keywords.filter (fun t => resume_keywords.contains t)),
   sortStrings (jd_keywords.filter (fun t => !resume_keywords.contains t)))

/-- Steps 3-6 of `analyze_resume`: preprocess both texts, joint TF-IDF fit and
cosine score, then keyword analysis. Each `TfidfVectorizer` fit raises an
uncaught `ValueError` when its corpus yields an empty vocabulary (no token of
length at least 2); no try/except surrounds these steps in main.py. -/
noncomputable def score_pipeline (m : NlpModel) (resume_text job_description : String) :
    Except HError AnalysisResult :=
  let processed_resume := preprocess_text m resume_text
  let processed_jd := preprocess_text m job_description
  if sklearnTokens processed_resume ++ sklearnTokens processed_jd = [] then
    .error (.uncaught "empty vocabulary")
  else
    let ms := match_score processed_resume processed_jd
    if sklearnTokens (preprocess_text m job_description) = [] then
      .error (.uncaught "empty vocabulary")
    else if sklearnTokens (preprocess_text m resume_text) = [] then
      .error (.uncaught "empty vocabulary")
    else
      let kw := keyword_analysis m resume_text job_description
      .ok ⟨ms, kw.1, kw.2⟩

/-- The external document parsers, as an environment: each may throw (the
`Except.error` carries the exception text interpolated into the 500 detail). -/
structure ExtractEnv (β : Type) where
  extract_text_from_pdf : β → Except String String
  extract_text_from_docx : β → Except String String

/-- Python `str.endswith`, over the character lists. -/
def strEndsWith (s suffix : String) : Bool := suffix.data.isSuffixOf s.data

/-- The `/analyze` handler `analyze_resume` from main.py: validate the file
extension, extract text (parser exceptions become a 500 `HTTPException`),
then run the scoring pipeline. -/
noncomputable def analyze_resume {β : Type} (m : NlpModel) (env : ExtractEnv β)
    (filename : String) (file : β) (job_description : String) :
    Except HError AnalysisResult :=
  if !(strEndsWith filename ".pdf" || strEndsWith filename ".docx") then
    .error (.http 400 "Invalid file type. Please upload a PDF or DOCX file.")
  else
    match (if strEndsWith filename ".pdf" then env.extract_text_from_pdf file
           else env.extract_text_from_docx file) with
    | .error e => .error (.http 500 ("Error reading file: " ++ e))
    | .ok resume_text => score_pipeline m resume_text job_description

/-! ### The `/gemini-analyze` endpoint -/

/-- Request model `GeminiAnalysisRequest` from main.py: the endpoint takes a
JSON body with two string fields (not a multipart file upload). -/
structure GeminiAnalysisRequest where
  resume_text : String
  job_description : String

/-- Response model `IdealCandidate` from main.py. -/
structure IdealCandidate where
  summary : String
  key_skills : List String
  key_technologies : List String
  experience_level : String
deriving DecidableEq

/-- Failure of a call to the remote generation service. -/
inductive RemoteError where
  | http (status : Nat) (body : String)
deriving DecidableEq

/-- The prompt string built by `gemini_analyze_resume` (the f-string, with its
fixed framing text around the interpolated job description). -/
def ideal_candidate_prompt (request : GeminiAnalysisRequest) : String :=
  "As an expert technical recruiter, analyze the following job description and create a profile of the ideal candidate. Identify the most important skills, technologies, and the required level of experience. Job Description: --- "
    ++ request.job_description ++ " ---"

/-- The hardcoded mock profile returned by the endpoint. -/
def mock_ideal_candidate : IdealCandidate :=
  ⟨"The ideal candidate is a mid-to-senior level Web Developer with strong proficiency in modern frontend frameworks like React and backend experience with Node.js. They should be skilled in building and consuming RESTful APIs and have a solid understanding of database management.",
   ["API Design", "Agile Methodologies", "Problem Solving", "UI/UX Principles"],
   ["React", "Node.js", "Express", "PostgreSQL", "Tailwind CSS", "Docker"],
   "3-5 years"⟩

/-- The `/gemini-analyze` handler from main.py. The `_remote` parameter models
the external generation service (where the real API call would go); the body
builds the prompt, logs it, and returns the hardcoded profile without ever
invoking the service, so the handler cannot fail. -/
def gemini_analyze_resume (_remote : String → Except RemoteError String)
    (request : GeminiAnalysisRequest) : Except HError IdealCandidate :=
  let _prompt := ideal_candidate_prompt request
  Except.ok mock_ideal_candidate

/-! ### Concrete instances used by witnesses and counterexamples -/

/-- A concrete language model standing in for `en_core_web_sm` on the demo
inputs: it lemmatizes "running" to "run" and marks "the" as a stop word,
which is what the real model does. -/
def demoNlp : NlpModel :=
  ⟨fun t => if t = "running" then "run" else t, fun t => t == "the"⟩

/-- An extraction environment whose parsers succeed with whitespace-only text
(an image-based or blank document). -/
def whitespaceEnv : ExtractEnv Unit := ⟨fun _ => .ok "   ", fun _ => .ok "   "⟩

/-- An extraction environment whose parsers always succeed with fixed text. -/
def plainEnv : ExtractEnv Unit :=
  ⟨fun _ => .ok "python developer", fun _ => .ok "python developer"⟩

/-- A remote generation service that fails every call with HTTP 500 (the
"simulated HTTP 500" of the spec's test property). -/
def failingRemote : String → Except RemoteError String :=
  fun _ => .error (.http 500 "Internal Server Error")

/-- Modelled from the spec: the keyword analysis as section 4.3 step 4 words
it, with the single-document vocabularies fitted on the unnormalized
job-description text and the unnormalized resume text. The program itself
fits them on the preprocessed texts; this definition exists to compare the
two behaviors. -/
def raw_keyword_analysis (resume_text job_description : String) :
    List String × List String :=
  let jd_keywords := vocabOf job_description
  let resume_keywords := vocabOf resume_text
  (sortStrings (jd_keywords.filter (fun t => resume_keywords.contains t)),
   sortStrings (jd_keywords.filter (fun t => !resume_keywords.contains t)))

/-- First document of the C2 counterexample: the token "xx" 101 times and
"yy" once. -/
def cexA : String := " ".intercalate (List.replicate 101 "xx" ++ ["yy"])

/-- Second document of the C2 counterexample: the token "xx" 101 times and
"yy" twice. -/
def cexB : String := " ".intercalate (List.replicate 101 "xx" ++ ["yy", "yy"])

/-! ### Order lemmas -/

theorem lexLe_total : ∀ x y : List Char, lexLe x y = true ∨ lexLe y x = true
  | [], _ => .inl rfl
  | _ :: _, [] => .inr rfl
  | a :: as, b :: bs => by
    simp only [lexLe]
    rcases Nat.lt_trichotomy a.toNat b.toNat with h | h | h
    · left; simp [h]
    · have h1 : ¬ a.toNat < b.toNat := by omega
      have h2 : ¬ b.toNat < a.toNat := by omega
      rcases lexLe_total as bs with ih | ih
      · left; simp [h1, h2, ih]
      · right; simp [h1, h2, ih]
    · right; simp [h]

theorem lexLe_trans : ∀ x y z : List Char,
    lexLe x y = true → lexLe y z = true → lexLe x z = true
  | [], _, _, _, _ => rfl
  | _ :: _, [], _, h, _ => by simp [lexLe] at h
  | _ :: _, _ :: _, [], _, h => by simp [lexLe] at h
  | a :: as, b :: bs, c :: cs, h1, h2 => by
    simp only [lexLe] at h1 h2 ⊢
    by_cases hab : a.toNat < b.toNat
    · by_cases hbc : b.toNat < c.toNat
      · simp [show a.toNat < c.toNat from by omega]
      · by_cases hcb : c.toNat < b.toNat
        · simp [hbc, hcb] at h2
        · simp [show a.toNat < c.toNat from by omega]
    · by_cases hba : b.toNat < a.toNat
      · simp [hab, hba] at h1
      · by_cases hbc : b.toNat < c.toNat
        · simp [show a.toNat < c.toNat from by omega]
        · by_cases hcb : c.toNat < b.toNat
          · simp [hbc, hcb] at h2
          · simp only [hab, hba, if_false] at h1
            simp only [hbc, hcb, if_false] at h2
            have ih := lexLe_trans as bs cs h1 h2
            simp [show ¬ a.toNat < c.toNat from by omega,
              show ¬ c.toNat < a.toNat from by omega, ih]

instance : IsTotal String strLE := ⟨fun a b => lexLe_total a.data b.data⟩

instance : IsTrans String strLE := ⟨fun a b c => lexLe_trans a.data b.data c.data⟩

/-! ### Sorting and membership lemmas -/

theorem mem_sortStrings {t : String} {l : List String} : t ∈ sortStrings l ↔ t ∈ l :=
  List.mem_insertionSort strLE

theorem sorted_sortStrings (l : List String) : List.Sorted strLE (sortStrings l) :=
  List.sorted_insertionSort strLE l

theorem mem_vocabOf {t d : String} : t ∈ vocabOf d ↔ t ∈ sklearnTokens d := by
  unfold vocabOf
  rw [mem_sortStrings, List.mem_dedup]

theorem mem_matched_keywords {m : NlpModel} {r j t : String} :
    t ∈ (keyword_analysis m r j).1 ↔
      t ∈ vocabOf (preprocess_text m j) ∧ t ∈ vocabOf (preprocess_text m r) := by
  unfold keyword_analysis
  rw [mem_sortStrings, List.mem_filter]
  simp

theorem mem_missing_keywords {m : NlpModel} {r j t : String} :
    t ∈ (keyword_analysis m r j).2 ↔
      t ∈ vocabOf (preprocess_text m j) ∧ t ∉ vocabOf (preprocess_text m r) := by
  unfold keyword_analysis
  rw [mem_sortStrings, List.mem_filter]
  simp

/-! ### Empty-vocabulary behavior of the scoring pipeline -/

theorem score_pipeline_empty_vocab (m : NlpModel) (r j : String)
    (h : sklearnTokens (preprocess_text m j) = [] ∨ sklearnTokens (preprocess_text m r) = []) :
    score_pipeline m r j = .error (.uncaught "empty vocabulary") := by
  rcases h with hj | hr
  · by_cases hr : sklearnTokens (preprocess_text m r) = [] <;>
      simp [score_pipeline, hj, hr]
  · by_cases hj : sklearnTokens (preprocess_text m j) = [] <;>
      simp [score_pipeline, hj, hr]

/-! ### TF-IDF facts -/

theorem docFreq_le_two (p1 p2 t : String) : docFreq p1 p2 t ≤ 2 := by
  unfold docFreq
  split <;> split <;> omega

theorem one_le_idf (p1 p2 t : String) : 1 ≤ idf p1 p2 t := by
  unfold idf
  have h2 : (docFreq p1 p2 t : ℝ) ≤ 2 := by exact_mod_cast docFreq_le_two p1 p2 t
  have h0 : (0:ℝ) ≤ (docFreq p1 p2 t : ℝ) := Nat.cast_nonneg _
  have hlog : 0 ≤ Real.log (3 / (1 + (docFreq p1 p2 t : ℝ))) := by
    apply Real.log_nonneg
    rw [le_div_iff₀ (by linarith)]
    linarith
  linarith

theorem tfidf_nonneg (p1 p2 d t : String) : 0 ≤ tfidf p1 p2 d t :=
  mul_nonneg (Nat.cast_nonneg _) (le_trans zero_le_one (one_le_idf p1 p2 t))

theorem dotProd_nonneg (p1 p2 : String) : 0 ≤ dotProd p1 p2 :=
  Finset.sum_nonneg fun _ _ =>
    mul_nonneg (tfidf_nonneg p1 p2 p1 _) (tfidf_nonneg p1 p2 p2 _)

theorem normSq_nonneg (p1 p2 d : String) : 0 ≤ normSq p1 p2 d :=
  Finset.sum_nonneg fun _ _ => sq_nonneg _

theorem cosineSim_nonneg (p1 p2 : String) : 0 ≤ cosineSim p1 p2 :=
  div_nonneg (dotProd_nonneg p1 p2)
    (mul_nonneg (Real.sqrt_nonneg _) (Real.sqrt_nonneg _))

theorem dotProd_sq_le (p1 p2 : String) :
    dotProd p1 p2 ^ 2 ≤ normSq p1 p2 p1 * normSq p1 p2 p2 := by
  unfold dotProd normSq
  exact Finset.sum_mul_sq_le_sq_mul_sq _ _ _

theorem dotProd_le_sqrt (p1 p2 : String) :
    dotProd p1 p2 ≤ Real.sqrt (normSq p1 p2 p1) * Real.sqrt (normSq p1 p2 p2) := by
  calc dotProd p1 p2 = Real.sqrt (dotProd p1 p2 ^ 2) :=
        (Real.sqrt_sq (dotProd_nonneg p1 p2)).symm
    _ ≤ Real.sqrt (normSq p1 p2 p1 * normSq p1 p2 p2) :=
        Real.sqrt_le_sqrt (dotProd_sq_le p1 p2)
    _ = _ := Real.sqrt_mul (normSq_nonneg p1 p2 p1) _

theorem cosineSim_le_one (p1 p2 : String) : cosineSim p1 p2 ≤ 1 := by
  unfold cosineSim
  rcases eq_or_lt_of_le (mul_nonneg (Real.sqrt_nonneg (normSq p1 p2 p1))
      (Real.sqrt_nonneg (normSq p1 p2 p2))) with h | h
  · rw [← h, div_zero]
    exact zero_le_one
  · rw [div_le_one h]
    exact dotProd_le_sqrt p1 p2

theorem match_score_nonneg (p1 p2 : String) : 0 ≤ match_score p1 p2 := by
  unfold match_score
  apply div_nonneg _ (by norm_num)
  have hc := cosineSim_nonneg p1 p2
  have h : (0:ℤ) ≤ round (cosineSim p1 p2 * 10000) := by
    rw [round_eq]
    apply Int.floor_nonneg.mpr
    linarith
  exact_mod_cast h

theorem match_score_le_100 (p1 p2 : String) : match_score p1 p2 ≤ 100 := by
  unfold match_score
  rw [div_le_iff₀ (by norm_num : (0:ℝ) < 100)]
  have hc := cosineSim_le_one p1 p2
  have h : round (cosineSim p1 p2 * 10000) ≤ 10000 := by
    rw [round_eq]
    apply Int.lt_add_one_iff.mp
    apply Int.floor_lt.mpr
    push_cast
    linarith
  calc ((round (cosineSim p1 p2 * 10000) : ℤ) : ℝ) ≤ ((10000:ℤ) : ℝ) := by exact_mod_cast h
    _ = 100 * 100 := by norm_num

theorem tfidf_sq_le_normSq (p1 p2 d t : String) (ht : t ∈ jointVocab p1 p2) :
    tfidf p1 p2 d t ^ 2 ≤ normSq p1 p2 d := by
  unfold normSq
  exact Finset.single_le_sum (f := fun i => tfidf p1 p2 d i ^ 2) (fun _ _ => sq_nonneg _) ht

theorem normSq_pos_left (p1 p2 : String) (h : sklearnTokens p1 ≠ []) :
    0 < normSq p1 p2 p1 := by
  obtain ⟨t, ts, hts⟩ : ∃ t ts, sklearnTokens p1 = t :: ts := by
    cases hl : sklearnTokens p1 with
    | nil => exact absurd hl h
    | cons t ts => exact ⟨t, ts, rfl⟩
  have htmem : t ∈ sklearnTokens p1 := by rw [hts]; exact List.mem_cons_self t ts
  have hvocab : t ∈ jointVocab p1 p2 := by
    unfold jointVocab
    rw [List.mem_toFinset, List.mem_append]
    exact .inl htmem
  have htf : (1:ℝ) ≤ (tf p1 t : ℝ) := by
    have h1 : 1 ≤ tf p1 t := by
      unfold tf
      exact List.count_pos_iff.mpr htmem
    exact_mod_cast h1
  have hidf := one_le_idf p1 p2 t
  have hentry : (1:ℝ) ≤ tfidf p1 p2 p1 t := by
    unfold tfidf
    nlinarith
  have hsq := tfidf_sq_le_normSq p1 p2 p1 t hvocab
  nlinarith

theorem normSq_pos_right (p1 p2 : String) (h : sklearnTokens p2 ≠ []) :
    0 < normSq p1 p2 p2 := by
  obtain ⟨t, ts, hts⟩ : ∃ t ts, sklearnTokens p2 = t :: ts := by
    cases hl : sklearnTokens p2 with
    | nil => exact absurd hl h
    | cons t ts => exact ⟨t, ts, rfl⟩
  have htmem : t ∈ sklearnTokens p2 := by rw [hts]; exact List.mem_cons_self t ts
  have hvocab : t ∈ jointVocab p1 p2 := by
    unfold jointVocab
    rw [List.mem_toFinset, List.mem_append]
    exact .inr htmem
  have htf : (1:ℝ) ≤ (tf p2 t : ℝ) := by
    have h1 : 1 ≤ tf p2 t := by
      unfold tf
      exact List.count_pos_iff.mpr htmem
    exact_mod_cast h1
  have hidf := one_le_idf p1 p2 t
  have hentry : (1:ℝ) ≤ tfidf p1 p2 p2 t := by
    unfold tfidf
    nlinarith
  have hsq := tfidf_sq_le_normSq p1 p2 p2 t hvocab
  nlinarith

theorem normSq_eq_zero_entries (p1 p2 d : String) (h : normSq p1 p2 d = 0) :
    ∀ t ∈ jointVocab p1 p2, tfidf p1 p2 d t = 0 := by
  intro t ht
  have hz := (Finset.sum_eq_zero_iff_of_nonneg (fun i _ => sq_nonneg (tfidf p1 p2 d i))).mp h t ht
  exact pow_eq_zero_iff (n := 2) (by norm_num) |>.mp hz

theorem cosineSim_eq_one (p1 p2 : String)
    (h : sklearnTokens p1 ++ sklearnTokens p2 ≠ [])
    (hid : ∀ t ∈ jointVocab p1 p2, normedVec p1 p2 p1 t = normedVec p1 p2 p2 t) :
    cosineSim p1 p2 = 1 := by
  have hsplit : sklearnTokens p1 ≠ [] ∨ sklearnTokens p2 ≠ [] := by
    by_contra hc
    push_neg at hc
    exact h (by rw [hc.1, hc.2]; rfl)
  have hpos : 0 < normSq p1 p2 p1 ∧ 0 < normSq p1 p2 p2 := by
    rcases hsplit with h1 | h2
    · have hn1 := normSq_pos_left p1 p2 h1
      refine ⟨hn1, ?_⟩
      by_contra hc
      have hn2 : normSq p1 p2 p2 = 0 :=
        le_antisymm (not_lt.mp hc) (normSq_nonneg p1 p2 p2)
      have hz2 := normSq_eq_zero_entries p1 p2 p2 hn2
      have hz1 : ∀ t ∈ jointVocab p1 p2, tfidf p1 p2 p1 t = 0 := by
        intro t ht
        have hnv := hid t ht
        unfold normedVec at hnv
        rw [hz2 t ht, zero_div] at hnv
        have hs : Real.sqrt (normSq p1 p2 p1) ≠ 0 := ne_of_gt (Real.sqrt_pos.mpr hn1)
        exact (div_eq_zero_iff.mp hnv).resolve_right hs
      have hzero : normSq p1 p2 p1 = 0 := by
        unfold normSq
        exact Finset.sum_eq_zero fun t ht => by rw [hz1 t ht]; ring
      linarith
    · have hn2 := normSq_pos_right p1 p2 h2
      refine ⟨?_, hn2⟩
      by_contra hc
      have hn1 : normSq p1 p2 p1 = 0 :=
        le_antisymm (not_lt.mp hc) (normSq_nonneg p1 p2 p1)
      have hz1 := normSq_eq_zero_entries p1 p2 p1 hn1
      have hz2 : ∀ t ∈ jointVocab p1 p2, tfidf p1 p2 p2 t = 0 := by
        intro t ht
        have hnv := (hid t ht).symm
        unfold normedVec at hnv
        rw [hz1 t ht, zero_div] at hnv
        have hs : Real.sqrt (normSq p1 p2 p2) ≠ 0 := ne_of_gt (Real.sqrt_pos.mpr hn2)
        exact (div_eq_zero_iff.mp hnv).resolve_right hs
      have hzero : normSq p1 p2 p2 = 0 := by
        unfold normSq
        exact Finset.sum_eq_zero fun t ht => by rw [hz2 t ht]; ring
      linarith
  obtain ⟨hn1, hn2⟩ := hpos
  have hs1 : Real.sqrt (normSq p1 p2 p1) ≠ 0 := ne_of_gt (Real.sqrt_pos.mpr hn1)
  have hs2 : Real.sqrt (normSq p1 p2 p2) ≠ 0 := ne_of_gt (Real.sqrt_pos.mpr hn2)
  have hnorm : ∑ t ∈ jointVocab p1 p2, normedVec p1 p2 p1 t ^ 2 = 1 := by
    have hterm : ∀ t ∈ jointVocab p1 p2,
        normedVec p1 p2 p1 t ^ 2 = tfidf p1 p2 p1 t ^ 2 / normSq p1 p2 p1 := by
      intro t _
      unfold normedVec
      rw [div_pow, Real.sq_sqrt (normSq_nonneg p1 p2 p1)]
    rw [Finset.sum_congr rfl hterm, ← Finset.sum_div]
    exact div_self hn1.ne'
  have hdot : dotProd p1 p2 =
      Real.sqrt (normSq p1 p2 p1) * Real.sqrt (normSq p1 p2 p2) := by
    unfold dotProd
    have hterm : ∀ t ∈ jointVocab p1 p2,
        tfidf p1 p2 p1 t * tfidf p1 p2 p2 t =
          (normedVec p1 p2 p1 t * normedVec p1 p2 p2 t) *
            (Real.sqrt (normSq p1 p2 p1) * Real.sqrt (normSq p1 p2 p2)) := by
      intro t _
      unfold normedVec
      field_simp
    rw [Finset.sum_congr rfl hterm, ← Finset.sum_mul]
    have hterm2 : ∀ t ∈ jointVocab p1 p2,
        normedVec p1 p2 p1 t * normedVec p1 p2 p2 t = normedVec p1 p2 p1 t ^ 2 := by
      intro t ht
      rw [← hid t ht]
      ring
    rw [Finset.sum_congr rfl hterm2, hnorm, one_mul]
  unfold cosineSim
  rw [hdot]
  exact div_self (mul_ne_zero hs1 hs2)

theorem match_score_eq_100_of_cosine (p1 p2 : String) (hc : cosineSim p1 p2 = 1) :
    match_score p1 p2 = 100 := by
  unfold match_score
  rw [hc, one_mul]
  rw [show ((10000:ℝ)) = ((10000:ℤ):ℝ) by norm_num, round_intCast]
  norm_num

/-! ### Whitespace-only text facts -/

theorem toLower_whitespace {c : Char} (h : c.isWhitespace = true) : c.toLower = c := by
  simp only [Char.isWhitespace, Bool.or_eq_true, decide_eq_true_eq] at h
  rcases h with ((h | h) | h) | h <;> subst h <;> decide

theorem wsSplit_all_ws : ∀ l : List Char,
    (∀ c ∈ l, c.isWhitespace = true) → wsSplit l [] = []
  | [], _ => rfl
  | c :: cs, h => by
    have hc : c.isWhitespace = true := h c (List.mem_cons_self c cs)
    have ih := wsSplit_all_ws cs (fun x hx => h x (List.mem_cons_of_mem c hx))
    simp [wsSplit, hc, ih]

theorem preprocess_text_whitespace (m : NlpModel) (t : String)
    (h : ∀ c ∈ t.data, c.isWhitespace = true) : preprocess_text m t = "" := by
  have hsplit : wsSplit
      ((t.data.filter fun c => isWordChar c || c.isWhitespace).map Char.toLower) [] = [] := by
    apply wsSplit_all_ws
    intro c hc
    rw [List.mem_map] at hc
    obtain ⟨c0, hc0, rfl⟩ := hc
    have hws := h c0 (List.mem_of_mem_filter hc0)
    rw [toLower_whitespace hws]
    exact hws
  simp only [preprocess_text]
  rw [hsplit]
  rfl

/-! ### Further keyword-analysis lemmas -/

theorem sorted_matched_keywords (m : NlpModel) (r j : String) :
    List.Sorted strLE (keyword_analysis m r j).1 :=
  sorted_sortStrings _

theorem sorted_missing_keywords (m : NlpModel) (r j : String) :
    List.Sorted strLE (keyword_analysis m r j).2 :=
  sorted_sortStrings _

theorem nodup_sortStrings {l : List String} (h : l.Nodup) : (sortStrings l).Nodup :=
  (List.Perm.nodup_iff (List.perm_insertionSort strLE l)).mpr h

theorem nodup_vocabOf (d : String) : (vocabOf d).Nodup :=
  nodup_sortStrings (List.nodup_dedup _)

theorem nodup_matched_keywords (m : NlpModel) (r j : String) :
    (keyword_analysis m r j).1.Nodup :=
  nodup_sortStrings (List.Nodup.filter _ (nodup_vocabOf _))

theorem nodup_missing_keywords (m : NlpModel) (r j : String) :
    (keyword_analysis m r j).2.Nodup :=
  nodup_sortStrings (List.Nodup.filter _ (nodup_vocabOf _))

/-! ## Claims -/

/-- C1 counterexample: with the demo language model, resume "run" and job
description "the running", the keyword sets the code computes are not the
sets based on the unnormalized (raw) vocabularies, and their union is not
the raw job-description vocabulary, so the vocabulary basis for keyword
extraction is not the raw text. -/
theorem C1_counterexample :
    keyword_analysis demoNlp "run" "the running" ≠
        raw_keyword_analysis "run" "the running" ∧
      (keyword_analysis demoNlp "run" "the running").1 ++
          (keyword_analysis demoNlp "run" "the running").2 ≠
        vocabOf "the running" := by decide

/-- C1 amended: the matched/missing keyword sets are derived from
single-document vocabularies fitted on the normalized (preprocessed)
job-description and resume texts, not on the raw texts: every keyword comes
from the normalized job-description vocabulary, matched and missing together
exhaust exactly that vocabulary, and every matched keyword lies in the
normalized resume vocabulary. -/
theorem C1_amended_normalized_vocabulary_basis (m : NlpModel)
    (resume_text job_description t : String) :
    ((t ∈ (keyword_analysis m resume_text job_description).1 ∨
        t ∈ (keyword_analysis m resume_text job_description).2) ↔
      t ∈ vocabOf (preprocess_text m job_description)) ∧
    (t ∈ (keyword_analysis m resume_text job_description).1 →
      t ∈ vocabOf (preprocess_text m resume_text)) := by
  constructor
  · rw [mem_matched_keywords, mem_missing_keywords]
    constructor
    · rintro (⟨hj, _⟩ | ⟨hj, _⟩) <;> exact hj
    · intro hj
      by_cases hr : t ∈ vocabOf (preprocess_text m resume_text)
      · exact .inl ⟨hj, hr⟩
      · exact .inr ⟨hj, hr⟩
  · intro hmem
    exact (mem_matched_keywords.mp hmem).2

/-- C4: for every uploaded file whose filename extension is outside .pdf and
.docx, the /analyze handler returns the 400 invalid-file-type error — never a
500 — and the outcome does not depend on the file bytes or on the extraction
environment, so the rejection precedes any extraction attempt. -/
theorem C4_invalid_extension_always_400 {β : Type} (m : NlpModel) (env : ExtractEnv β)
    (filename : String) (file : β) (job_description : String)
    (h : (strEndsWith filename ".pdf" || strEndsWith filename ".docx") = false) :
    analyze_resume m env filename file job_description =
      .error (.http 400 "Invalid file type. Please upload a PDF or DOCX file.") := by
  unfold analyze_resume
  rw [h]
  rfl

/-- C4 witness: a concrete .txt upload is rejected with the 400 error. -/
theorem C4_witness :
    (strEndsWith "resume.txt" ".pdf" || strEndsWith "resume.txt" ".docx") = false ∧
      analyze_resume demoNlp whitespaceEnv "resume.txt" () "python" =
        .error (.http 400 "Invalid file type. Please upload a PDF or DOCX file.") :=
  ⟨by decide,
    C4_invalid_extension_always_400 demoNlp whitespaceEnv "resume.txt" () "python" (by decide)⟩

/-- C6 counterexample: with a job description consisting only of stop words,
the analysis does not fail with a structured HTTPException; the sklearn
empty-vocabulary ValueError escapes the handler uncaught (FastAPI then
produces a bare 500, not the structured client-visible error the claim
requires). -/
theorem C6_counterexample :
    score_pipeline demoNlp "python developer" "the the" =
      .error (.uncaught "empty vocabulary") := by rfl

/-- C6 as the code has it: if either document's normalized text reduces to
zero vocabulary terms, the lexical analysis fails with the uncaught
empty-vocabulary ValueError rather than with a structured client-visible
HTTPException. -/
theorem C6_amended_empty_vocab_uncaught (m : NlpModel)
    (resume_text job_description : String)
    (h : sklearnTokens (preprocess_text m job_description) = [] ∨
      sklearnTokens (preprocess_text m resume_text) = []) :
    score_pipeline m resume_text job_description =
      .error (.uncaught "empty vocabulary") :=
  score_pipeline_empty_vocab m resume_text job_description h

/-- C6 witness: a stop-word-only resume triggers the uncaught error. -/
theorem C6_witness :
    (sklearnTokens (preprocess_text demoNlp "python") = [] ∨
      sklearnTokens (preprocess_text demoNlp "the") = []) ∧
      score_pipeline demoNlp "the" "python" = .error (.uncaught "empty vocabulary") :=
  ⟨by decide, C6_amended_empty_vocab_uncaught demoNlp "the" "python" (by decide)⟩

/-- C7 counterexample: the /gemini-analyze handler takes a JSON body, and a
whitespace-only resume_text yields a success with the hardcoded profile, not
a 400-class could-not-extract error (no extraction happens at all). -/
theorem C7_counterexample :
    gemini_analyze_resume failingRemote ⟨"   ", "backend role"⟩ =
      .ok mock_ideal_candidate := rfl

/-- C7 amended: the /gemini-analyze endpoint accepts a JSON body with
resume_text and job_description string fields (not a multipart file upload);
a whitespace-only resume_text is not rejected — the handler succeeds with the
single hardcoded IdealCandidate, produces no aggregate of three structures,
and never contacts the remote service. -/
theorem C7_amended_whitespace_not_rejected (remote : String → Except RemoteError String)
    (resume_text job_description : String)
    (_h : ∀ c ∈ resume_text.data, c.isWhitespace = true) :
    gemini_analyze_resume remote ⟨resume_text, job_description⟩ =
      .ok mock_ideal_candidate := rfl

/-- C7 witness at a concrete whitespace-only resume_text. -/
theorem C7_witness :
    (∀ c ∈ ("   " : String).data, c.isWhitespace = true) ∧
      gemini_analyze_resume failingRemote ⟨"   ", "job"⟩ = .ok mock_ideal_candidate :=
  ⟨by decide, C7_amended_whitespace_not_rejected failingRemote "   " "job" (by decide)⟩

/-- C8 counterexample: with a remote generation service failing every call
with HTTP 500 (a failing Step 1), the pipeline still returns a success — the
hardcoded single-structure profile — rather than an error, refuting the
claimed all-or-nothing aggregation. -/
theorem C8_counterexample :
    gemini_analyze_resume failingRemote ⟨"resume text", "job text"⟩ =
      .ok mock_ideal_candidate := rfl

/-- C8 amended: the handler never invokes the remote generation service; its
outcome is identical under a service whose every call fails with HTTP 500,
and it never returns an error, so no retry, abort or partial-aggregation
behavior exists; the success payload is the single hardcoded IdealCandidate,
not an aggregate of three step outputs. -/
theorem C8_amended_no_remote_invocation (remote : String → Except RemoteError String)
    (req : GeminiAnalysisRequest) :
    gemini_analyze_resume remote req = gemini_analyze_resume failingRemote req ∧
      gemini_analyze_resume remote req = .ok mock_ideal_candidate ∧
      ∀ e, gemini_analyze_resume remote req ≠ .error e :=
  ⟨rfl, rfl, fun _ h => by simp [gemini_analyze_resume] at h⟩

/-- C9: the lexical analysis is deterministic: on a fixed language model,
resume text and job-description text, two invocations of the scoring
pipeline return the same outcome (same match_score, matched_keywords and
missing_keywords); the embedding is pure, with no hidden state. -/
theorem C9_score_deterministic (m : NlpModel) (resume_text job_description : String)
    (o1 o2 : Except HError AnalysisResult)
    (h1 : score_pipeline m resume_text job_description = o1)
    (h2 : score_pipeline m resume_text job_description = o2) : o1 = o2 := by
  rw [← h1, ← h2]

/-- C9 witness: two concrete invocations agree. -/
theorem C9_witness :
    score_pipeline demoNlp "python developer" "python engineer" =
      score_pipeline demoNlp "python developer" "python engineer" :=
  C9_score_deterministic demoNlp "python developer" "python engineer" _ _ rfl rfl

/-- C10: for every request body and every remote-service behavior, the
/gemini-analyze handler returns the same fixed hardcoded IdealCandidate: the
result is independent of the resume_text and job_description fields and of
the remote service (which is never contacted), and no ResumeFeedback or
ActionableSuggestions structure is produced (the response is just the one
IdealCandidate). -/
theorem C10_gemini_constant_response (remote1 remote2 : String → Except RemoteError String)
    (req1 req2 : GeminiAnalysisRequest) :
    gemini_analyze_resume remote1 req1 = .ok mock_ideal_candidate ∧
      gemini_analyze_resume remote1 req1 = gemini_analyze_resume remote2 req2 :=
  ⟨rfl, rfl⟩

/-- C3: for every successful lexical analysis, matched_keywords is exactly
the intersection of the job-description vocabulary and the resume vocabulary
(both fitted on the preprocessed texts), missing_keywords is exactly the
job-description vocabulary minus the resume vocabulary, the two lists are
disjoint, their union is the job-description vocabulary, and both lists are
sorted in the string order and duplicate-free (so each is the unique sorted
list enumerating its set: matched the intersection, missing the
difference). -/
theorem C3_keyword_invariants (m : NlpModel) (resume_text job_description : String)
    (res : AnalysisResult)
    (h : score_pipeline m resume_text job_description = .ok res) :
    (∀ t, t ∈ res.matched_keywords ↔
      t ∈ vocabOf (preprocess_text m job_description) ∧
        t ∈ vocabOf (preprocess_text m resume_text)) ∧
    (∀ t, t ∈ res.missing_keywords ↔
      t ∈ vocabOf (preprocess_text m job_description) ∧
        t ∉ vocabOf (preprocess_text m resume_text)) ∧
    (∀ t, ¬ (t ∈ res.matched_keywords ∧ t ∈ res.missing_keywords)) ∧
    (∀ t, t ∈ vocabOf (preprocess_text m job_description) ↔
      (t ∈ res.matched_keywords ∨ t ∈ res.missing_keywords)) ∧
    List.Sorted strLE res.matched_keywords ∧
    List.Sorted strLE res.missing_keywords ∧
    res.matched_keywords.Nodup ∧
    res.missing_keywords.Nodup := by
  have hres : res.matched_keywords = (keyword_analysis m resume_text job_description).1 ∧
      res.missing_keywords = (keyword_analysis m resume_text job_description).2 := by
    simp only [score_pipeline] at h
    split at h
    · simp at h
    · split at h
      · simp at h
      · split at h
        · simp at h
        · injection h with h
          rw [← h]
          exact ⟨rfl, rfl⟩
  obtain ⟨hm, hmiss⟩ := hres
  refine ⟨?_, ?_, ?_, ?_, ?_, ?_, ?_, ?_⟩
  · intro t
    rw [hm]
    exact mem_matched_keywords
  · intro t
    rw [hmiss]
    exact mem_missing_keywords
  · intro t hc
    rw [hm] at hc
    rw [hmiss] at hc
    exact (mem_missing_keywords.mp hc.2).2 (mem_matched_keywords.mp hc.1).2
  · intro t
    rw [hm, hmiss]
    constructor
    · intro hj
      by_cases hr : t ∈ vocabOf (preprocess_text m resume_text)
      · exact .inl (mem_matched_keywords.mpr ⟨hj, hr⟩)
      · exact .inr (mem_missing_keywords.mpr ⟨hj, hr⟩)
    · rintro (hmem | hmem)
      · exact (mem_matched_keywords.mp hmem).1
      · exact (mem_missing_keywords.mp hmem).1
  · rw [hm]
    exact sorted_matched_keywords m resume_text job_description
  · rw [hmiss]
    exact sorted_missing_keywords m resume_text job_description
  · rw [hm]
    exact nodup_matched_keywords m resume_text job_description
  · rw [hmiss]
    exact nodup_missing_keywords m resume_text job_description

/-- The concrete successful analysis used by the C3 witness. -/
noncomputable def demoRes : AnalysisResult :=
  ⟨match_score "python docker" "python kubernetes", ["python"], ["kubernetes"]⟩

/-- C3 witness: a concrete successful analysis, with the invariants
instantiated at it. -/
theorem C3_witness :
    score_pipeline demoNlp "python docker" "python kubernetes" = .ok demoRes ∧
    ((∀ t, t ∈ demoRes.matched_keywords ↔
      t ∈ vocabOf (preprocess_text demoNlp "python kubernetes") ∧
        t ∈ vocabOf (preprocess_text demoNlp "python docker")) ∧
    (∀ t, t ∈ demoRes.missing_keywords ↔
      t ∈ vocabOf (preprocess_text demoNlp "python kubernetes") ∧
        t ∉ vocabOf (preprocess_text demoNlp "python docker")) ∧
    (∀ t, ¬ (t ∈ demoRes.matched_keywords ∧ t ∈ demoRes.missing_keywords)) ∧
    (∀ t, t ∈ vocabOf (preprocess_text demoNlp "python kubernetes") ↔
      (t ∈ demoRes.matched_keywords ∨ t ∈ demoRes.missing_keywords)) ∧
    List.Sorted strLE demoRes.matched_keywords ∧
    List.Sorted strLE demoRes.missing_keywords ∧
    demoRes.matched_keywords.Nodup ∧
    demoRes.missing_keywords.Nodup) :=
  have h : score_pipeline demoNlp "python docker" "python kubernetes" = .ok demoRes := by rfl
  ⟨h, C3_keyword_invariants demoNlp "python docker" "python kubernetes" demoRes h⟩

/-- C5 counterexample: a .pdf whose extracted text is whitespace-only is not
rejected with an extraction error: the handler proceeds beyond extraction
into preprocessing and vectorization and dies there with the uncaught
empty-vocabulary ValueError, instead of the claimed ExtractionError before
scoring. -/
theorem C5_counterexample :
    analyze_resume demoNlp whitespaceEnv "resume.pdf" () "python developer" =
      .error (.uncaught "empty vocabulary") := by rfl

/-- C5 amended: for every accepted upload (.pdf or .docx filename), extraction
fails with the 500 reading-error HTTPException exactly when the parser the
extension selects throws; but empty or whitespace-only extracted text is not
rejected at extraction: the handler hands it to the scoring pipeline, which
then fails with the uncaught empty-vocabulary ValueError at the
single-document vectorizer fit. -/
theorem C5_amended_extraction_behavior {β : Type} (m : NlpModel) (env : ExtractEnv β)
    (filename : String) (file : β) (job_description : String)
    (hacc : (strEndsWith filename ".pdf" || strEndsWith filename ".docx") = true) :
    (∀ e, (if strEndsWith filename ".pdf" then env.extract_text_from_pdf file
           else env.extract_text_from_docx file) = .error e →
      analyze_resume m env filename file job_description =
        .error (.http 500 ("Error reading file: " ++ e))) ∧
    (∀ t, (if strEndsWith filename ".pdf" then env.extract_text_from_pdf file
           else env.extract_text_from_docx file) = .ok t →
      (∀ c ∈ t.data, c.isWhitespace = true) →
      analyze_resume m env filename file job_description =
        score_pipeline m t job_description ∧
      analyze_resume m env filename file job_description =
        .error (.uncaught "empty vocabulary")) := by
  constructor
  · intro e he
    simp [analyze_resume, hacc, he]
  · intro t ht hws
    have hrun : analyze_resume m env filename file job_description =
        score_pipeline m t job_description := by
      simp [analyze_resume, hacc, ht]
    refine ⟨hrun, ?_⟩
    rw [hrun]
    apply score_pipeline_empty_vocab
    right
    rw [preprocess_text_whitespace m t hws]
    rfl

/-- C5 witness: instantiated at a .docx filename with the environment whose
parser extracts whitespace-only text. -/
theorem C5_witness :
    (strEndsWith "resume.docx" ".pdf" || strEndsWith "resume.docx" ".docx") = true ∧
    ((∀ e, (if strEndsWith "resume.docx" ".pdf" then whitespaceEnv.extract_text_from_pdf ()
            else whitespaceEnv.extract_text_from_docx ()) = .error e →
      analyze_resume demoNlp whitespaceEnv "resume.docx" () "python developer" =
        .error (.http 500 ("Error reading file: " ++ e))) ∧
    (∀ t, (if strEndsWith "resume.docx" ".pdf" then whitespaceEnv.extract_text_from_pdf ()
           else whitespaceEnv.extract_text_from_docx ()) = .ok t →
      (∀ c ∈ t.data, c.isWhitespace = true) →
      analyze_resume demoNlp whitespaceEnv "resume.docx" () "python developer" =
        score_pipeline demoNlp t "python developer" ∧
      analyze_resume demoNlp whitespaceEnv "resume.docx" () "python developer" =
        .error (.uncaught "empty vocabulary"))) :=
  ⟨by decide, C5_amended_extraction_behavior demoNlp whitespaceEnv "resume.docx" ()
    "python developer" (by decide)⟩

/-- C2 amended: for any two normalized documents the score operation
processes (the joint fit succeeded, i.e. some token exists), match_score
lies in the interval from 0 to 100, and if the two l2-normalized TF-IDF
vectors are identical then match_score is 100. The claimed converse is
false: rounding to two decimals returns 100 for every cosine at least
0.99995, also for distinct vectors (see the counterexample). -/
theorem C2_amended_score_range_and_identity (p1 p2 : String)
    (h : sklearnTokens p1 ++ sklearnTokens p2 ≠ []) :
    0 ≤ match_score p1 p2 ∧ match_score p1 p2 ≤ 100 ∧
      ((∀ t ∈ jointVocab p1 p2, normedVec p1 p2 p1 t = normedVec p1 p2 p2 t) →
        match_score p1 p2 = 100) :=
  ⟨match_score_nonneg p1 p2, match_score_le_100 p1 p2,
    fun hid => match_score_eq_100_of_cosine p1 p2 (cosineSim_eq_one p1 p2 h hid)⟩

/-- C2 witness: instantiated at two identical one-word documents. -/
theorem C2_witness :
    sklearnTokens "python" ++ sklearnTokens "python" ≠ [] ∧
      (0 ≤ match_score "python" "python" ∧ match_score "python" "python" ≤ 100 ∧
        ((∀ t ∈ jointVocab "python" "python",
            normedVec "python" "python" "python" t =
              normedVec "python" "python" "python" t) →
          match_score "python" "python" = 100)) :=
  ⟨by decide, C2_amended_score_range_and_identity "python" "python" (by decide)⟩

set_option maxRecDepth 100000

/-- C2 counterexample: on the documents cexA (the token "xx" 101 times and
"yy" once) and cexB ("xx" 101 times and "yy" twice) the cosine similarity is
10203 divided by the square root of 104111410, about 0.9999510, so the
two-decimal rounding returns a match_score of exactly 100 although the two
l2-normalized TF-IDF vectors differ at "yy" — refuting the only-if direction
of the claim. -/
theorem C2_counterexample :
    match_score cexA cexB = 100 ∧
      ¬ (∀ t ∈ jointVocab cexA cexB,
          normedVec cexA cexB cexA t = normedVec cexA cexB cexB t) := by
  have hva : jointVocab cexA cexB = {"xx", "yy"} := by decide
  have htfAx : tf cexA "xx" = 101 := by decide
  have htfAy : tf cexA "yy" = 1 := by decide
  have htfBx : tf cexB "xx" = 101 := by decide
  have htfBy : tf cexB "yy" = 2 := by decide
  have hdfx : docFreq cexA cexB "xx" = 2 := by decide
  have hdfy : docFreq cexA cexB "yy" = 2 := by decide
  have hidfx : idf cexA cexB "xx" = 1 := by
    unfold idf
    rw [hdfx]
    push_cast
    norm_num [Real.log_one]
  have hidfy : idf cexA cexB "yy" = 1 := by
    unfold idf
    rw [hdfy]
    push_cast
    norm_num [Real.log_one]
  have hvAx : tfidf cexA cexB cexA "xx" = 101 := by
    unfold tfidf
    rw [htfAx, hidfx]
    norm_num
  have hvAy : tfidf cexA cexB cexA "yy" = 1 := by
    unfold tfidf
    rw [htfAy, hidfy]
    norm_num
  have hvBx : tfidf cexA cexB cexB "xx" = 101 := by
    unfold tfidf
    rw [htfBx, hidfx]
    norm_num
  have hvBy : tfidf cexA cexB cexB "yy" = 2 := by
    unfold tfidf
    rw [htfBy, hidfy]
    norm_num
  have hnotmem : ("xx" : String) ∉ ({"yy"} : Finset String) := by decide
  have hdot : dotProd cexA cexB = 10203 := by
    unfold dotProd
    rw [hva, Finset.sum_insert hnotmem, Finset.sum_singleton, hvAx, hvAy, hvBx, hvBy]
    norm_num
  have hn1 : normSq cexA cexB cexA = 10202 := by
    unfold normSq
    rw [hva, Finset.sum_insert hnotmem, Finset.sum_singleton, hvAx, hvAy]
    norm_num
  have hn2 : normSq cexA cexB cexB = 10205 := by
    unfold normSq
    rw [hva, Finset.sum_insert hnotmem, Finset.sum_singleton, hvBx, hvBy]
    norm_num
  have hcos : cosineSim cexA cexB = 10203 / Real.sqrt 104111410 := by
    unfold cosineSim
    rw [hdot, hn1, hn2, ← Real.sqrt_mul (by norm_num : (0:ℝ) ≤ 10202)]
    norm_num
  have hsqrt_pos : 0 < Real.sqrt 104111410 := Real.sqrt_pos.mpr (by norm_num)
  have hup : (10203:ℝ) / Real.sqrt 104111410 ≤ 1 := by
    rw [div_le_one hsqrt_pos]
    rw [show (10203:ℝ) = Real.sqrt (10203 ^ 2) from (Real.sqrt_sq (by norm_num)).symm]
    apply Real.sqrt_le_sqrt
    norm_num
  have hlow : (19999:ℝ) / 20000 ≤ 10203 / Real.sqrt 104111410 := by
    rw [div_le_div_iff₀ (by norm_num) hsqrt_pos]
    have hs : Real.sqrt 104111410 ≤ 204060000 / 19999 := by
      rw [show (204060000 / 19999 : ℝ) = Real.sqrt ((204060000 / 19999) ^ 2) from
        (Real.sqrt_sq (by norm_num)).symm]
      apply Real.sqrt_le_sqrt
      rw [div_pow, le_div_iff₀ (by norm_num)]
      norm_num
    calc (19999:ℝ) * Real.sqrt 104111410 ≤ 19999 * (204060000 / 19999) := by
          have hmul := mul_le_mul_of_nonneg_left hs (by norm_num : (0:ℝ) ≤ 19999)
          linarith
      _ = 204060000 := by norm_num
      _ ≤ 10203 * 20000 := by norm_num
  have hround : round ((10203 / Real.sqrt 104111410) * 10000) = 10000 := by
    rw [round_eq]
    have h1 : (10000:ℝ) ≤ (10203 / Real.sqrt 104111410) * 10000 + 1 / 2 := by nlinarith
    have h2 : (10203 / Real.sqrt 104111410) * 10000 + 1 / 2 < 10001 := by nlinarith
    rw [Int.floor_eq_iff]
    constructor
    · push_cast
      linarith
    · push_cast
      linarith
  have hms : match_score cexA cexB = 100 := by
    unfold match_score
    rw [hcos, hround]
    norm_num
  refine ⟨hms, ?_⟩
  intro hall
  have hyy : ("yy" : String) ∈ jointVocab cexA cexB := by
    rw [hva]
    decide
  have heq := hall "yy" hyy
  unfold normedVec at heq
  rw [hvAy, hvBy, hn1, hn2] at heq
  have hs1 : (0:ℝ) < Real.sqrt 10202 := Real.sqrt_pos.mpr (by norm_num)
  have hs2 : (0:ℝ) < Real.sqrt 10205 := Real.sqrt_pos.mpr (by norm_num)
  rw [div_eq_div_iff hs1.ne' hs2.ne'] at heq
  have hsq := congrArg (fun x : ℝ => x ^ 2) heq
  simp only [mul_pow, one_mul, one_pow] at hsq
  rw [Real.sq_sqrt (by norm_num : (0:ℝ) ≤ 10205),
    Real.sq_sqrt (by norm_num : (0:ℝ) ≤ 10202)] at hsq
  norm_num at hsq

end ResumeEnhancer
